import Mathlib

/-!
# Verification of the Klyro mini-app client logic

A shallow embedding, in Lean 4, of the data-reshaping logic of the
Klyro mini-app repository:

* `getGithubActivityData`, `processOnchainData`, `getOnchainActivityData`
  (src/components/ProfileClient.tsx) — the activity aggregator;
* `isValidAddress` and the status poller `startPolling`
  (the user-data form component);
* the Farcaster webhook `POST` handler (the webhook route).

Modelling conventions, used throughout:

* JavaScript records (plain objects) are modelled as association lists in
  insertion order; object iteration (`Object.keys` / `forEach` re-indexing
  the same record) is modelled as a fold over the entries.
* ISO date strings are modelled structurally by their date portion
  (year, month, day): the code only ever uses `getFullYear()` and the
  `split('T')[0]` date portion, and local/UTC time are taken to coincide
  (a timezone-free clock).
* JavaScript numbers used as counts are modelled as `Nat`;
  `Math.round(n * 2)` on a natural `n` is exact, so the score formula
  `Math.min(Math.round(n * 2), 100)` is modelled as `min (n * 2) 100`.
* TVL decimal strings are modelled by the rational value they denote;
  `toFixed(2)` re-formatting is modelled as rounding to two decimal
  places (`roundTo2`).
* Fields that a code path leaves off an output object are modelled with
  `Option` (`none` = field absent).
* All embedded operations are total Lean functions; "never throws" for a
  transform is witnessed by the embedding being a well-defined total
  function on every input shape the claims quantify over.
-/

namespace Klyro

/-- The date portion of an ISO date string, as year/month/day. -/
structure IsoDate where
  y : Nat
  m : Nat
  d : Nat
deriving DecidableEq, Repr

/-- Chronological (lexicographic) strict order on ISO dates, the order
`new Date(a).getTime() < new Date(b).getTime()` induces on date-portion
values. -/
def dateLt (a b : IsoDate) : Bool :=
  a.y < b.y || (a.y == b.y && (a.m < b.m || (a.m == b.m && a.d < b.d)))

/-- Gregorian leap-year rule, as implemented by the JavaScript `Date`
month/day arithmetic. -/
def isLeap (y : Nat) : Bool :=
  (y % 4 == 0 && y % 100 != 0) || y % 400 == 0

/-- Days in a Gregorian month (months numbered 1–12). -/
def daysInMonth (y : Nat) (m : Nat) : Nat :=
  if m == 2 then (if isLeap y then 29 else 28)
  else if m == 4 || m == 6 || m == 9 || m == 11 then 30
  else 31

/-- All dates of a calendar year in order, Jan 1 through Dec 31: the
sequence of days the transforms' `while (currentDate <= endDate)` walk
visits. -/
def yearDates (y : Nat) : List IsoDate :=
  [1, 2, 3, 4, 5, 6, 7, 8, 9, 10, 11, 12].flatMap fun m =>
    (List.range (daysInMonth y m)).map fun d => ⟨y, m, d + 1⟩

/-- English short month name, as produced by
`toLocaleString('default', \x7b month: 'short' \x7d)` in an English
locale (months numbered 1–12). -/
def monthName (m : Nat) : String :=
  match m with
  | 1 => "Jan" | 2 => "Feb" | 3 => "Mar" | 4 => "Apr"
  | 5 => "May" | 6 => "Jun" | 7 => "Jul" | 8 => "Aug"
  | 9 => "Sep" | 10 => "Oct" | 11 => "Nov" | _ => "Dec"

/-- First-occurrence deduplication, the order a JavaScript `Set` keeps
its insertion sequence in (`[...new Set(xs)]`). -/
def dedupFirstAux [DecidableEq α] (seen : List α) : List α → List α
  | [] => []
  | x :: xs => if x ∈ seen then dedupFirstAux seen xs
               else x :: dedupFirstAux (x :: seen) xs

/-- First-occurrence deduplication entry point. -/
def dedupFirst [DecidableEq α] (l : List α) : List α := dedupFirstAux [] l

/-- Model of `[...new Set(years)].sort()`: deduplicate, then sort ascending
(string sort and numeric sort agree on equal-width year numerals). -/
def sortedDedup (l : List Nat) : List Nat :=
  List.insertionSort (· ≤ ·) (dedupFirst l)

/-- JavaScript `x || d` for an optional number `x`: `null`/absent and
`0` are falsy and select the fallback. -/
def jsOrNat (x : Option Nat) (d : Nat) : Nat :=
  match x with
  | none => d
  | some n => if n == 0 then d else n

/-- Association-list lookup, modelling indexing a JavaScript record by a
string key. -/
def findVal (k : String) : List (String × α) → Option α
  | [] => none
  | (k1, v) :: rest => if k1 == k then some v else findVal k rest

/-- Model of `toFixed(2)` on a decimal value: rounding the rational
to two fraction digits. -/
def roundTo2 (q : ℚ) : ℚ := (round (q * 100) : ℤ) / 100

/-- Model of `a.includes(b)`: substring containment on strings, via the
underlying character lists. -/
def strContains (a b : String) : Bool :=
  a.toList.tails.any (fun t => b.toList.isPrefixOf t)

/-- Model of `a.startsWith(b)`, via the underlying character lists. -/
def strStartsWith (a b : String) : Bool :=
  b.toList.isPrefixOf a.toList

/-- Model of `a.endsWith(b)`, via the underlying character lists. -/
def strEndsWith (a b : String) : Bool :=
  b.toList.isSuffixOf a.toList

/-- Model of `s.split('.')` on the underlying character list: the maximal
dot-free segments, with empty segments kept (`"".split('.')` is
`[""]`, `".eth".split('.')` is `["", "eth"]`). -/
def splitOnDot : List Char → List (List Char)
  | [] => [[]]
  | c :: rest =>
      match splitOnDot rest with
      | [] => [[c]]
      | h :: t =>
          if c = Char.ofNat 46 then [] :: h :: t
          else (c :: h) :: t

/-! ## The GitHub calendar transform (`getGithubActivityData`) -/

/-- One `contributionDays` entry of the contribution calendar: an ISO
date and a contribution count. -/
structure ContribDay where
  date : IsoDate
  contributionCount : Nat
deriving DecidableEq, Repr

/-- The `contributionData` section of the profile snapshot: the grand
total over the whole snapshot and the calendar weeks (each week its
`contributionDays` list). -/
structure ContributionData where
  totalContributions : Nat
  weeks : List (List ContribDay)
deriving DecidableEq, Repr

/-- Output object of `getGithubActivityData`. `selectedYearContributions`
is `none` on the code paths that leave the field off the returned
object. -/
structure GithubActivity where
  contributionsByDay : List Nat
  contributionMonths : List String
  totalContributions : Nat
  selectedYearContributions : Option Nat
  availableYears : List Nat
deriving DecidableEq, Repr

/-- The transform `getGithubActivityData(selectedYear)` from ProfileClient.tsx. The
snapshot's optional `contributionData` is the first argument;
`currentYear` models the ambient `new Date().getFullYear()`. -/
def getGithubActivityData (cd : Option ContributionData)
    (selectedYear : Option Nat) (currentYear : Nat) : GithubActivity :=
  match cd with
  | none =>
      { contributionsByDay := [], contributionMonths := [],
        totalContributions := 0, selectedYearContributions := none,
        availableYears := [] }
  | some data =>
      let allDates := data.weeks.flatMap fun week => week.map (·.date)
      let years := sortedDedup (allDates.map (·.y))
      let yearToUse := jsOrNat selectedYear
        (match years.getLast? with
         | some y => y
         | none => currentYear)
      let yearContributions := data.weeks.flatMap fun week =>
        week.filter fun day => day.date.y == yearToUse
      if yearContributions.isEmpty then
        { contributionsByDay := [], contributionMonths := [],
          totalContributions := 0, selectedYearContributions := none,
          availableYears := years }
      else
        let days := yearDates yearToUse
        let dailyCounts := days.map fun dt =>
          match yearContributions.find? (fun day => day.date == dt) with
          | some c => c.contributionCount
          | none => 0
        let months := dedupFirst (days.map fun dt => monthName dt.m)
        { contributionsByDay := dailyCounts,
          contributionMonths := months,
          totalContributions := data.totalContributions,
          selectedYearContributions :=
            some (yearContributions.foldl (fun sum day => sum + day.contributionCount) 0),
          availableYears := years }

/-! ## The on-chain transforms (`processOnchainData`, `getOnchainActivityData`) -/

/-- One transaction record of `onchainHistory` (only its date is read). -/
structure Tx where
  date : IsoDate
deriving DecidableEq, Repr

/-- A value stored under a chain key of `onchainHistory`: either an
array of transaction records or some non-array value (the shape the
code's `Array.isArray` guard defends against). -/
inductive TxsVal where
  | arr (txs : List Tx)
  | nonArray
deriving DecidableEq, Repr

/-- One contract record of `contractsDeployed`. `tvl` is the rational
value of the decimal string (`none` = absent/empty, which
`parseFloat(contract.tvl || "0")` reads as 0); `uniqueUsers` is `none`
for `null`/`undefined`. -/
structure Contract where
  tvl : Option ℚ
  uniqueUsers : Option Nat
deriving DecidableEq, Repr

/-- A mainnet or testnet bucket of a network summary. `tvl` is the
rational value of the 2-fraction-digit accumulator string. -/
structure NetBucket where
  transactions : Nat
  contracts : Nat
  tvl : ℚ
  uniqueUsers : Nat
deriving DecidableEq, Repr

/-- An entry of the `chainGroups` record built by `processOnchainData`. -/
structure ChainGroup where
  name : String
  mainnet : NetBucket
  testnet : NetBucket
  score : Nat
  firstActivity : Option IsoDate
deriving DecidableEq, Repr

/-- The per-network `ChainData` output shape of ProfileClient.tsx. -/
structure ChainData where
  name : String
  transactions : Nat
  contracts : Nat
  score : Nat
  firstActivity : Option IsoDate
  tvl : ℚ
  uniqueUsers : Nat
  mainnet : NetBucket
  testnet : NetBucket
deriving DecidableEq, Repr

/-- Result object of `processOnchainData`. -/
structure OnchainSummary where
  totalTransactions : Nat
  chains : List ChainData
  chainCount : Nat
  topChain : String
  uniqueUsers : Nat
deriving DecidableEq, Repr

/-- The `onchainHistory` record: chain key to stored value, in
insertion order. -/
abbrev OnchainHistory := List (String × TxsVal)

/-- The `contractsDeployed` record: chain key to contract records. -/
abbrev ContractsDeployed := List (String × List Contract)

/-- Earliest date of a list: `dates.sort(byTime)[0]`. -/
def minDate (l : List IsoDate) : Option IsoDate :=
  l.foldl (fun acc dt =>
    match acc with
    | none => some dt
    | some cur => if dateLt dt cur then some dt else some cur) none

/-- The earliest-activity update: replace the held timestamp when a
new one exists and is strictly earlier (or nothing was held). -/
def mergeFirstActivity (old newOpt : Option IsoDate) : Option IsoDate :=
  match newOpt, old with
  | some fa, none => some fa
  | some fa, some o => if dateLt fa o then some fa else some o
  | none, _ => old

/-- The mainnet- or testnet-bucket update of an existing network entry,
followed by the first-activity and score recomputation, exactly as the
`chainGroups[networkName]` branch performs it. -/
def updateGroup (g : ChainGroup) (isMainnet : Bool) (txCount contractCount : Nat)
    (tvl : ℚ) (uniqueUsers : Nat) (firstActivity : Option IsoDate) : ChainGroup :=
  let g1 :=
    if isMainnet then
      { g with mainnet :=
        { transactions := g.mainnet.transactions + txCount,
          contracts := g.mainnet.contracts + contractCount,
          uniqueUsers := g.mainnet.uniqueUsers + uniqueUsers,
          tvl := roundTo2 (g.mainnet.tvl + tvl) } }
    else
      { g with testnet :=
        { transactions := g.testnet.transactions + txCount,
          contracts := g.testnet.contracts + contractCount,
          uniqueUsers := g.testnet.uniqueUsers + uniqueUsers,
          tvl := roundTo2 (g.testnet.tvl + tvl) } }
  let g2 := { g1 with firstActivity := mergeFirstActivity g1.firstActivity firstActivity }
  { g2 with
    score := min ((g2.mainnet.transactions + g2.testnet.transactions) * 2) 100 }

/-- A fresh network entry with separate mainnet and testnet buckets, as
the `else` branch of the chain-key merge creates it. -/
def newGroup (networkName : String) (isMainnet : Bool) (txCount contractCount : Nat)
    (tvl : ℚ) (uniqueUsers : Nat) (firstActivity : Option IsoDate) : ChainGroup :=
  { name := networkName,
    mainnet :=
      { transactions := if isMainnet then txCount else 0,
        contracts := if isMainnet then contractCount else 0,
        tvl := if isMainnet then roundTo2 tvl else 0,
        uniqueUsers := if isMainnet then uniqueUsers else 0 },
    testnet :=
      { transactions := if isMainnet then 0 else txCount,
        contracts := if isMainnet then 0 else contractCount,
        tvl := if isMainnet then 0 else roundTo2 tvl,
        uniqueUsers := if isMainnet then 0 else uniqueUsers },
    score := min (txCount * 2) 100,
    firstActivity := firstActivity }

/-- One step of the `chainNames.forEach` loop: skip a missing,
non-array, or empty entry, otherwise classify the key, read the chain's
contract records, and merge into the network groups (carrying the
running count of pushed transactions). -/
def procChain (cd : Option ContractsDeployed)
    (acc : List (String × ChainGroup) × Nat) (entry : String × TxsVal) :
    List (String × ChainGroup) × Nat :=
  match entry.2 with
  | .nonArray => acc
  | .arr [] => acc
  | .arr txs =>
      let chainName := entry.1
      let isMainnet := strContains chainName "mainnet"
      let networkName := if strStartsWith chainName "eth" then "Ethereum" else "Base"
      let txCount := txs.length
      let contractsData :=
        match cd with
        | none => []
        | some m => (findVal chainName m).getD []
      let contractCount := contractsData.length
      let firstActivity := minDate (txs.map (·.date))
      let tvl :=
        if contractsData.isEmpty then 0
        else contractsData.foldl (fun sum c => sum + c.tvl.getD 0) (0 : ℚ)
      let uniqueUsers :=
        if contractsData.isEmpty then 0
        else contractsData.foldl (fun sum c => sum + c.uniqueUsers.getD 0) 0
      let groups := acc.1
      match findVal networkName groups with
      | some _ =>
          (groups.map fun p =>
            if p.1 == networkName then
              (p.1, updateGroup p.2 isMainnet txCount contractCount tvl
                      uniqueUsers firstActivity)
            else p,
           acc.2 + txCount)
      | none =>
          (groups ++ [(networkName,
             newGroup networkName isMainnet txCount contractCount tvl
               uniqueUsers firstActivity)],
           acc.2 + txCount)

/-- The network-group to `ChainData` conversion of the
`Object.entries(chainGroups).map` step. -/
def groupToChainData (g : ChainGroup) : ChainData :=
  { name := g.name,
    transactions := g.mainnet.transactions + g.testnet.transactions,
    contracts := g.mainnet.contracts + g.testnet.contracts,
    score := g.score,
    firstActivity := g.firstActivity,
    tvl := roundTo2 (g.mainnet.tvl + g.testnet.tvl),
    uniqueUsers := g.mainnet.uniqueUsers + g.testnet.uniqueUsers,
    mainnet := g.mainnet,
    testnet := g.testnet }

/-- The grand-total unique-users loop over every `contractsDeployed`
record (`null`/`undefined` counted as 0). -/
def totalUsers (cd : Option ContractsDeployed) : Nat :=
  match cd with
  | none => 0
  | some m => m.foldl (fun sum p =>
      p.2.foldl (fun s c => s + c.uniqueUsers.getD 0) sum) 0

/-- Model of `chains.reduce(maxByTransactions, chains[0]).name`, first entry
winning ties; the empty string when there are no chains. -/
def topChainOf (chains : List ChainData) : String :=
  match chains with
  | [] => ""
  | c0 :: rest =>
      (rest.foldl (fun mx ch =>
        if ch.transactions > mx.transactions then ch else mx) c0).name

/-- The transform `processOnchainData()` from ProfileClient.tsx, over the snapshot's
optional `onchainHistory` and `contractsDeployed` sections. -/
def processOnchainData (oh : Option OnchainHistory)
    (cd : Option ContractsDeployed) : OnchainSummary :=
  match oh with
  | none =>
      { totalTransactions := 0, chains := [], chainCount := 0,
        topChain := "", uniqueUsers := 0 }
  | some h =>
      if h.isEmpty then
        { totalTransactions := 0, chains := [], chainCount := 0,
          topChain := "", uniqueUsers := 0 }
      else
        let st := h.foldl (procChain cd) ([], 0)
        let chains := st.1.map fun p => groupToChainData p.2
        { totalTransactions := st.2,
          chains := chains,
          chainCount := chains.length,
          topChain := topChainOf chains,
          uniqueUsers := totalUsers cd }

/-- Result object of `getOnchainActivityData`. -/
structure OnchainActivity where
  transactionsByDay : List Nat
  activityMonths : List String
  totalTransactions : Nat
  availableYears : List Nat
deriving DecidableEq, Repr

/-- Model of `Object.values(onchainHistory).flat()` restricted to dated
transaction records: an array value contributes its elements. (A
non-array value would survive `flat()` as a single element but carries
no date, so it matches no selected year and contributes no daily count;
it is dropped here.) -/
def flatTxs (h : OnchainHistory) : List Tx :=
  h.flatMap fun p =>
    match p.2 with
    | .arr txs => txs
    | .nonArray => []

/-- The transform `getOnchainActivityData(selectedYear)` from ProfileClient.tsx. -/
def getOnchainActivityData (oh : Option OnchainHistory)
    (selectedYear : Option Nat) (currentYear : Nat) : OnchainActivity :=
  match oh with
  | none =>
      { transactionsByDay := [], activityMonths := [],
        totalTransactions := 0, availableYears := [] }
  | some h =>
      if h.isEmpty then
        { transactionsByDay := [], activityMonths := [],
          totalTransactions := 0, availableYears := [] }
      else
        let allTransactions := flatTxs h
        let years := sortedDedup (allTransactions.map (·.date.y))
        let yearToUse := jsOrNat selectedYear
          (match years.getLast? with
           | some y => y
           | none => currentYear)
        let yearTransactions := allTransactions.filter fun tx => tx.date.y == yearToUse
        if yearTransactions.isEmpty then
          { transactionsByDay := [], activityMonths := [],
            totalTransactions := 0, availableYears := years }
        else
          let days := yearDates yearToUse
          let dailyCounts := days.map fun dt =>
            (yearTransactions.filter fun tx => tx.date == dt).length
          let months := dedupFirst (days.map fun dt => monthName dt.m)
          { transactionsByDay := dailyCounts,
            activityMonths := months,
            totalTransactions := yearTransactions.length,
            availableYears := years }

/-! ## The wallet/ENS address validator (`isValidAddress`) -/

/-- A hexadecimal digit (either case). -/
def isHexChar (c : Char) : Bool :=
  c.isDigit || (Char.ofNat 97 ≤ c && c ≤ Char.ofNat 102) ||
    (Char.ofNat 65 ≤ c && c ≤ Char.ofNat 70)

/-- Modelled from the spec: the external ethers-library `isAddress`
check ("a syntactically valid EVM checksum/hex address"), which the
repository imports rather than defines. An EVM address is `0x` followed
by exactly 40 hexadecimal digits; the EIP-55 mixed-case checksum
refinement (keccak-based, inside the external library) is abstracted
away, giving a permissive superset — every claim at issue here turns
only on the length/charset syntax. -/
def isAddress (s : String) : Bool :=
  strStartsWith s "0x" && (s.toList.drop 2).length == 40 &&
    (s.toList.drop 2).all isHexChar

/-- The validator `isValidAddress` from the user-data form: empty is allowed (only
the first field is mandatory at submit time), then the EVM-address
check, then the `.eth` / `.base.eth` suffix check with a non-empty
label before the first dot. -/
def isValidAddress (address : String) : Bool :=
  if address == "" then true
  else if isAddress address then true
  else if strEndsWith address ".eth" || strEndsWith address ".base.eth" then
    decide (0 < ((splitOnDot address.toList).headD []).length)
  else false

/-! ## The status poller (`startPolling`) -/

/-- A sub-task or top-level analysis status. -/
inductive ProgressStatus where
  | processing
  | completed
  | failed
deriving DecidableEq, Repr

/-- The three independent sub-task states of a status response. -/
structure ProgressData where
  githubData : ProgressStatus
  contractsData : ProgressStatus
  onchainData : ProgressStatus
deriving DecidableEq, Repr

/-- The `data` part of a `/fbi/status/` response. -/
structure StatusData where
  status : ProgressStatus
  progress : Option ProgressData
deriving DecidableEq, Repr

/-- A full `/fbi/status/` response body. -/
structure StatusResponse where
  success : Bool
  data : StatusData
deriving DecidableEq, Repr

/-- One observable occurrence inside the poll loop: a poll whose
response arrived (with its observation time in milliseconds), or a poll
whose request or parse failed in transit. -/
inductive PollEvent where
  | response (r : StatusResponse) (t : Nat)
  | transportError (t : Nat)
deriving DecidableEq, Repr

/-- The state owned by one run of `startPolling`: whether the interval
is still live, how many times `clearInterval` has run, the scheduled
navigation (fire time and target URL) if any, and the last stored
status snapshot. -/
structure PollView where
  timerLive : Bool
  clearCount : Nat
  nav : Option (Nat × String)
  statusData : Option StatusResponse
deriving DecidableEq, Repr

/-- The state right after `setInterval` establishes the poll timer. -/
def pollInit : PollView :=
  { timerLive := true, clearCount := 0, nav := none, statusData := none }

/-- One tick of the interval callback. A cleared interval fires no
callbacks, so events reaching a dead timer leave the state unchanged.
On a response: store the snapshot in full, then on `COMPLETED` clear
the interval and schedule navigation to the username-derived URL 2000
milliseconds later; on `FAILED` clear the interval only; the `catch`
branch logs and changes nothing. -/
def pollStep (username : String) (s : PollView) (e : PollEvent) : PollView :=
  if !s.timerLive then s
  else
    match e with
    | .transportError _ => s
    | .response r t =>
        let s1 := { s with statusData := some r }
        match r.data.status with
        | .completed =>
            { s1 with timerLive := false, clearCount := s.clearCount + 1,
                      nav := some (t + 2000, "/" ++ username) }
        | .failed =>
            { s1 with timerLive := false, clearCount := s.clearCount + 1 }
        | .processing => s1

/-- A whole run of the poller over a sequence of poll outcomes. -/
def pollRun (username : String) (events : List PollEvent) : PollView :=
  events.foldl (pollStep username) pollInit

/-- An event that does not stop the poller: a transport/parse error or
a response whose top-level status is `PROCESSING`. -/
def isNonTerminal : PollEvent → Bool
  | .transportError _ => true
  | .response r _ => r.data.status == .processing

/-! ## The Farcaster webhook `POST` handler -/

/-- The `notificationDetails` object of a decoded webhook payload. -/
structure NotificationDetails where
  url : String
  token : String
deriving DecidableEq, Repr

/-- A decoded (base64 + JSON) webhook payload. -/
structure WebhookPayload where
  event : String
  notificationDetails : Option NotificationDetails
deriving DecidableEq, Repr

/-- The top-level webhook request body; each field is `none` when the
JSON body lacks it. -/
structure WebhookBody where
  header : Option String
  payload : Option String
  signature : Option String
deriving DecidableEq, Repr

/-- JavaScript falsiness of an optional string field (`!body.x`):
absent and the empty string are both falsy. -/
def jsFalsyStr (o : Option String) : Bool :=
  match o with
  | none => true
  | some s => s == ""

/-- What the handler returns and does: the HTTP status, whether the
body is `\x7b success: true \x7d`, the decoded payload the event switch
processed (if processing happened), and the log lines the switch
emitted. -/
structure WebhookResult where
  status : Nat
  success : Bool
  processed : Option WebhookPayload
  logs : List String
deriving DecidableEq, Repr

/-- The event switch of the handler: every branch only logs; a
`frame_added` or `notifications_enabled` event logs its notification
details exactly when they are present, and an unknown event name is
logged and ignored. No branch fails. -/
def eventLogs (p : WebhookPayload) : List String :=
  match p.event with
  | "frame_added" =>
      "User added frame and enabled notifications" ::
        (match p.notificationDetails with
         | some nd => ["Notification URL: " ++ nd.url,
                       "Notification token: " ++ nd.token]
         | none => [])
  | "frame_removed" => ["User removed frame"]
  | "notifications_enabled" =>
      "User enabled notifications" ::
        (match p.notificationDetails with
         | some nd => ["Notification URL: " ++ nd.url,
                       "Notification token: " ++ nd.token]
         | none => [])
  | "notifications_disabled" => ["User disabled notifications"]
  | e => ["Unknown event type: " ++ e]

/-- The webhook `POST` handler. `body` is `none` when `request.json()`
itself throws (caught as a 500). The base64 + JSON decode of the
payload string is the `decode` parameter: `none` models a decode that
throws (caught as a 500), `some` the decoded payload. Field checks use
JavaScript falsiness exactly as `!body.header || !body.payload ||
!body.signature` does. -/
def handleWebhookPost (decode : String → Option WebhookPayload)
    (body : Option WebhookBody) : WebhookResult :=
  match body with
  | none => { status := 500, success := false, processed := none, logs := [] }
  | some b =>
      if jsFalsyStr b.header || jsFalsyStr b.payload || jsFalsyStr b.signature then
        { status := 400, success := false, processed := none, logs := [] }
      else
        match b.payload with
        | none =>
            { status := 400, success := false, processed := none, logs := [] }
        | some pstr =>
            match decode pstr with
            | none =>
                { status := 500, success := false, processed := none, logs := [] }
            | some p =>
                { status := 200, success := true, processed := some p,
                  logs := eventLogs p }

/-- The score/bucket relationship every network entry of the
`chainGroups` record maintains: its combined score is
`min(round(totalTx * 2), 100)` over both buckets. -/
def ScoreInvariant (gs : List (String × ChainGroup)) : Prop :=
  ∀ p ∈ gs,
    p.2.score = min ((p.2.mainnet.transactions + p.2.testnet.transactions) * 2) 100

/-! ## Helper lemmas -/

theorem yearDates_length (y : Nat) :
    (yearDates y).length = if isLeap y then 366 else 365 := by
  cases h : isLeap y <;> simp [yearDates, daysInMonth, h]

theorem mem_dedupFirstAux [DecidableEq α] (seen : List α) (l : List α) (a : α) :
    a ∈ dedupFirstAux seen l ↔ a ∈ l ∧ a ∉ seen := by
  induction l generalizing seen with
  | nil => simp [dedupFirstAux]
  | cons x xs ih =>
      by_cases hx : x ∈ seen
      · rw [show dedupFirstAux seen (x :: xs) = dedupFirstAux seen xs by
          simp [dedupFirstAux, hx]]
        rw [ih]
        simp only [List.mem_cons]
        constructor
        · rintro ⟨h1, h2⟩
          exact ⟨Or.inr h1, h2⟩
        · rintro ⟨h1, h2⟩
          rcases h1 with rfl | h1
          · exact absurd hx h2
          · exact ⟨h1, h2⟩
      · rw [show dedupFirstAux seen (x :: xs) = x :: dedupFirstAux (x :: seen) xs by
          simp [dedupFirstAux, hx]]
        simp only [List.mem_cons, ih]
        constructor
        · rintro (rfl | ⟨h1, h2⟩)
          · exact ⟨Or.inl rfl, hx⟩
          · exact ⟨Or.inr h1, fun hs => h2 (Or.inr hs)⟩
        · rintro ⟨h1, h2⟩
          rcases h1 with rfl | h1
          · exact Or.inl rfl
          · by_cases hax : a = x
            · exact Or.inl hax
            · exact Or.inr ⟨h1, fun hs => hs.elim hax h2⟩

theorem mem_sortedDedup (l : List Nat) (a : Nat) :
    a ∈ sortedDedup l ↔ a ∈ l := by
  unfold sortedDedup dedupFirst
  rw [(List.perm_insertionSort (· ≤ ·) (dedupFirstAux [] l)).mem_iff]
  simp [mem_dedupFirstAux]

theorem foldl_add_map {α : Type} (f : α → Nat) (l : List α) (n : Nat) :
    l.foldl (fun s x => s + f x) n = n + (l.map f).sum := by
  induction l generalizing n with
  | nil => simp
  | cons x xs ih => simp [ih, Nat.add_assoc]

theorem foldl_users (m : List (String × List Contract)) (n : Nat) :
    m.foldl (fun sum p => p.2.foldl (fun s c => s + c.uniqueUsers.getD 0) sum) n =
      n + (m.map fun p => (p.2.map fun c => c.uniqueUsers.getD 0).sum).sum := by
  induction m generalizing n with
  | nil => simp
  | cons p rest ih =>
      simp only [List.foldl_cons, List.map_cons, List.sum_cons]
      rw [ih, foldl_add_map]
      omega

theorem totalUsers_eq (cd : Option ContractsDeployed) :
    totalUsers cd =
      ((cd.getD []).map fun p => (p.2.map fun c => c.uniqueUsers.getD 0).sum).sum := by
  cases cd with
  | none => simp [totalUsers]
  | some m => simp [totalUsers, foldl_users]

theorem foldl_congr_on {α β : Type} (f g : β → α → β) (l : List α)
    (hfg : ∀ a ∈ l, ∀ b, f b a = g b a) : ∀ b, l.foldl f b = l.foldl g b := by
  induction l with
  | nil => intro b; rfl
  | cons a rest ih =>
      intro b
      rw [List.foldl_cons, List.foldl_cons, hfg a (List.mem_cons_self a rest) b]
      exact ih (fun x hx b2 => hfg x (List.mem_cons_of_mem a hx) b2) _

theorem findVal_filter_ne (a k : String) (l : List (String × α)) (hak : a ≠ k) :
    findVal a (l.filter fun p => p.1 ≠ k) = findVal a l := by
  induction l with
  | nil => rfl
  | cons p rest ih =>
      obtain ⟨k1, v⟩ := p
      simp only [ne_eq, decide_not] at ih ⊢
      by_cases hpk : k1 = k
      · have h2 : (k1 == a) = false := by
          rw [beq_eq_false_iff_ne]
          intro h
          exact hak (by rw [← h, hpk])
        have h1 : (!decide (k1 = k)) = false := by simp [hpk]
        simp only [List.filter_cons, h1, Bool.false_eq_true, if_false, findVal, h2]
        exact ih
      · have h1 : (!decide (k1 = k)) = true := by simp [hpk]
        simp only [List.filter_cons, h1, findVal, ih]

theorem updateGroup_score (g : ChainGroup) (im : Bool) (tc cc : Nat) (tv : ℚ)
    (uu : Nat) (fa : Option IsoDate) :
    (updateGroup g im tc cc tv uu fa).score =
      min (((updateGroup g im tc cc tv uu fa).mainnet.transactions +
            (updateGroup g im tc cc tv uu fa).testnet.transactions) * 2) 100 := by
  cases im <;> simp [updateGroup]

theorem newGroup_score (nn : String) (im : Bool) (tc cc : Nat) (tv : ℚ)
    (uu : Nat) (fa : Option IsoDate) :
    (newGroup nn im tc cc tv uu fa).score =
      min (((newGroup nn im tc cc tv uu fa).mainnet.transactions +
            (newGroup nn im tc cc tv uu fa).testnet.transactions) * 2) 100 := by
  cases im <;> simp [newGroup]

theorem scoreInv_procChain (cd : Option ContractsDeployed)
    (acc : List (String × ChainGroup) × Nat) (e : String × TxsVal)
    (h : ScoreInvariant acc.1) : ScoreInvariant (procChain cd acc e).1 := by
  obtain ⟨k, v⟩ := e
  match v with
  | .nonArray => exact h
  | .arr [] => exact h
  | .arr (t :: ts) =>
      intro p hp
      simp only [procChain] at hp
      rcases hfv : findVal (if (strStartsWith k "eth") = true then "Ethereum" else "Base")
          acc.1 with _ | g
      · rw [hfv] at hp
        simp only at hp
        rcases List.mem_append.mp hp with hold | hnew
        · exact h p hold
        · have hpe := List.mem_singleton.mp hnew
          rw [hpe]
          exact newGroup_score _ _ _ _ _ _ _
      · rw [hfv] at hp
        simp only at hp
        obtain ⟨q, hq, hpq⟩ := List.mem_map.mp hp
        by_cases hqn : (q.1 == if (strStartsWith k "eth") = true then "Ethereum" else "Base") = true
        · rw [if_pos hqn] at hpq
          rw [← hpq]
          exact updateGroup_score _ _ _ _ _ _ _
        · rw [if_neg hqn] at hpq
          rw [← hpq]
          exact h q hq

theorem scoreInv_foldl (cd : Option ContractsDeployed) (l : OnchainHistory)
    (acc : List (String × ChainGroup) × Nat) (h : ScoreInvariant acc.1) :
    ScoreInvariant (l.foldl (procChain cd) acc).1 := by
  induction l generalizing acc with
  | nil => exact h
  | cons e rest ih => exact ih _ (scoreInv_procChain cd acc e h)

theorem pollStep_dead (username : String) (s : PollView) (e : PollEvent)
    (h : s.timerLive = false) : pollStep username s e = s := by
  simp [pollStep, h]

theorem pollFoldl_dead (username : String) (l : List PollEvent) (s : PollView)
    (h : s.timerLive = false) : l.foldl (pollStep username) s = s := by
  induction l with
  | nil => rfl
  | cons e rest ih => rw [List.foldl_cons, pollStep_dead username s e h, ih]

theorem pollFoldl_nonTerminal (username : String) (l : List PollEvent) (s : PollView)
    (h : ∀ e ∈ l, isNonTerminal e = true) (hlive : s.timerLive = true) :
    (l.foldl (pollStep username) s).timerLive = true ∧
    (l.foldl (pollStep username) s).clearCount = s.clearCount ∧
    (l.foldl (pollStep username) s).nav = s.nav := by
  induction l generalizing s with
  | nil => exact ⟨hlive, rfl, rfl⟩
  | cons e rest ih =>
      have he := h e (List.mem_cons_self e rest)
      have hstep : (pollStep username s e).timerLive = true ∧
          (pollStep username s e).clearCount = s.clearCount ∧
          (pollStep username s e).nav = s.nav := by
        cases e with
        | transportError t => simp [pollStep, hlive]
        | response r t =>
            have hr : r.data.status = ProgressStatus.processing := by
              simpa [isNonTerminal] using he
            simp [pollStep, hlive, hr]
      rw [List.foldl_cons]
      obtain ⟨h1, h2, h3⟩ :=
        ih (pollStep username s e) (fun x hx => h x (List.mem_cons_of_mem e hx)) hstep.1
      exact ⟨h1, h2.trans hstep.2.1, h3.trans hstep.2.2⟩

theorem processOnchain_eq_main (h : OnchainHistory) (cd : Option ContractsDeployed)
    (hne : h ≠ []) :
    processOnchainData (some h) cd =
      { totalTransactions := (h.foldl (procChain cd) ([], 0)).2,
        chains := (h.foldl (procChain cd) ([], 0)).1.map fun p => groupToChainData p.2,
        chainCount :=
          ((h.foldl (procChain cd) ([], 0)).1.map fun p => groupToChainData p.2).length,
        topChain :=
          topChainOf ((h.foldl (procChain cd) ([], 0)).1.map fun p => groupToChainData p.2),
        uniqueUsers := totalUsers cd } := by
  have hie : h.isEmpty = false := by
    cases h with
    | nil => exact absurd rfl hne
    | cons a l => rfl
  simp [processOnchainData, hie]

theorem getGithub_eq_main (data : ContributionData) (sy cy : Nat) (hsy : sy ≠ 0)
    (hne : (data.weeks.flatMap fun week => week.filter fun day => day.date.y == sy) ≠ []) :
    getGithubActivityData (some data) (some sy) cy =
      { contributionsByDay := (yearDates sy).map fun dt =>
          match (data.weeks.flatMap fun week =>
              week.filter fun day => day.date.y == sy).find? (fun day => day.date == dt) with
          | some c => c.contributionCount
          | none => 0,
        contributionMonths := dedupFirst ((yearDates sy).map fun dt => monthName dt.m),
        totalContributions := data.totalContributions,
        selectedYearContributions := some ((data.weeks.flatMap fun week =>
          week.filter fun day => day.date.y == sy).foldl
            (fun sum day => sum + day.contributionCount) 0),
        availableYears :=
          sortedDedup ((data.weeks.flatMap fun week => week.map (·.date)).map (·.y)) } := by
  have hy : jsOrNat (some sy)
      (match (sortedDedup ((data.weeks.flatMap fun week =>
        week.map (·.date)).map (·.y))).getLast? with
       | some y => y
       | none => cy) = sy := by
    simp [jsOrNat, hsy]
  have hie : (data.weeks.flatMap fun week =>
      week.filter fun day => day.date.y == sy).isEmpty = false := by
    cases he : data.weeks.flatMap fun week => week.filter fun day => day.date.y == sy with
    | nil => exact absurd he hne
    | cons a l => rfl
  simp only [getGithubActivityData, hy, hie, Bool.false_eq_true, if_false]

theorem getOnchain_eq_main (h : OnchainHistory) (sy cy : Nat) (hsy : sy ≠ 0)
    (hne : (flatTxs h).filter (fun tx => tx.date.y == sy) ≠ []) :
    getOnchainActivityData (some h) (some sy) cy =
      { transactionsByDay := (yearDates sy).map fun dt =>
          ((flatTxs h).filter (fun tx => tx.date.y == sy)).filter
            (fun tx => tx.date == dt) |>.length,
        activityMonths := dedupFirst ((yearDates sy).map fun dt => monthName dt.m),
        totalTransactions := ((flatTxs h).filter (fun tx => tx.date.y == sy)).length,
        availableYears := sortedDedup ((flatTxs h).map (·.date.y)) } := by
  have hh : h.isEmpty = false := by
    cases h with
    | nil => exact absurd (by simp [flatTxs]) hne
    | cons a l => rfl
  have hy : jsOrNat (some sy)
      (match (sortedDedup ((flatTxs h).map (·.date.y))).getLast? with
       | some y => y
       | none => cy) = sy := by
    simp [jsOrNat, hsy]
  have hie : ((flatTxs h).filter (fun tx => tx.date.y == sy)).isEmpty = false := by
    cases he : (flatTxs h).filter (fun tx => tx.date.y == sy) with
    | nil => exact absurd he hne
    | cons a l => rfl
  simp only [getOnchainActivityData, hh, hy, hie, Bool.false_eq_true, if_false]

theorem year_entries_ne_nil (data : ContributionData) (sy : Nat)
    (hex : ∃ week ∈ data.weeks, ∃ day ∈ week, day.date.y = sy) :
    (data.weeks.flatMap fun week => week.filter fun day => day.date.y == sy) ≠ [] := by
  obtain ⟨w, hw, d, hd, hdy⟩ := hex
  intro hcontra
  have hmem : d ∈ data.weeks.flatMap fun week =>
      week.filter fun day => day.date.y == sy := by
    rw [List.mem_flatMap]
    exact ⟨w, hw, List.mem_filter.mpr ⟨hd, by simp [hdy]⟩⟩
  rw [hcontra] at hmem
  exact absurd hmem (List.not_mem_nil d)

theorem year_txs_ne_nil (h : OnchainHistory) (sy : Nat)
    (hex : ∃ p ∈ h, ∃ txs, p.2 = TxsVal.arr txs ∧ ∃ tx ∈ txs, tx.date.y = sy) :
    (flatTxs h).filter (fun tx => tx.date.y == sy) ≠ [] := by
  obtain ⟨p, hp, txs, htxs, tx, htx, hty⟩ := hex
  intro hcontra
  have hmem : tx ∈ (flatTxs h).filter (fun tx => tx.date.y == sy) := by
    rw [List.mem_filter]
    refine ⟨?_, by simp [hty]⟩
    rw [flatTxs, List.mem_flatMap]
    exact ⟨p, hp, by rw [htxs]; exact htx⟩
  rw [hcontra] at hmem
  exact absurd hmem (List.not_mem_nil tx)

/-! ## The claims -/

/-- C2: for every contribution calendar and every selected year with at
least one recorded entry in that year, the generated daily activity
series has exactly 366 entries when the selected year is a leap year
and 365 otherwise; likewise for the on-chain per-day series. -/
theorem claim2_daily_series_length :
    (∀ (data : ContributionData) (sy cy : Nat), sy ≠ 0 →
      (∃ week ∈ data.weeks, ∃ day ∈ week, day.date.y = sy) →
      (getGithubActivityData (some data) (some sy) cy).contributionsByDay.length =
        if isLeap sy then 366 else 365) ∧
    (∀ (h : OnchainHistory) (sy cy : Nat), sy ≠ 0 →
      (∃ p ∈ h, ∃ txs, p.2 = TxsVal.arr txs ∧ ∃ tx ∈ txs, tx.date.y = sy) →
      (getOnchainActivityData (some h) (some sy) cy).transactionsByDay.length =
        if isLeap sy then 366 else 365) := by
  constructor
  · intro data sy cy hsy hex
    rw [getGithub_eq_main data sy cy hsy (year_entries_ne_nil data sy hex)]
    simp [yearDates_length]
  · intro h sy cy hsy hex
    rw [getOnchain_eq_main h sy cy hsy (year_txs_ne_nil h sy hex)]
    simp [yearDates_length]

/-- Witness for C2 at a leap year (2024) and a non-leap year (2023). -/
theorem claim2_daily_series_length_witness :
    ((getGithubActivityData (some ⟨2, [[⟨⟨2024, 3, 10⟩, 2⟩]]⟩)
        (some 2024) 2025).contributionsByDay.length =
      if isLeap 2024 then 366 else 365) ∧
    ((getOnchainActivityData (some [("base-mainnet", TxsVal.arr [⟨⟨2023, 7, 4⟩⟩])])
        (some 2023) 2025).transactionsByDay.length =
      if isLeap 2023 then 366 else 365) :=
  ⟨claim2_daily_series_length.1 ⟨2, [[⟨⟨2024, 3, 10⟩, 2⟩]]⟩ 2024 2025
      (by decide) (by decide),
   claim2_daily_series_length.2 [("base-mainnet", TxsVal.arr [⟨⟨2023, 7, 4⟩⟩])] 2023 2025
      (by decide)
      ⟨("base-mainnet", TxsVal.arr [⟨⟨2023, 7, 4⟩⟩]), by decide,
       [⟨⟨2023, 7, 4⟩⟩], rfl, ⟨⟨2023, 7, 4⟩⟩, by decide, rfl⟩⟩

/-- C3 counterexample: for a selected year with no entries, the
transform returns `totalContributions = 0` and omits the year subtotal,
so the snapshot's grand total (10 here) is not exposed. -/
theorem claim3_counterexample :
    (getGithubActivityData
        (some ⟨10, [[⟨⟨2023, 5, 1⟩, 4⟩, ⟨⟨2023, 5, 2⟩, 6⟩]]⟩)
        (some 2024) 2025).totalContributions = 0 ∧
    (getGithubActivityData
        (some ⟨10, [[⟨⟨2023, 5, 1⟩, 4⟩, ⟨⟨2023, 5, 2⟩, 6⟩]]⟩)
        (some 2024) 2025).selectedYearContributions = none ∧
    (0 : Nat) ≠ 10 := by
  decide

/-- C3 (amended): whenever the selected year has at least one entry,
the transform exposes the snapshot's grand total and the year-specific
subtotal as two separate output fields. -/
theorem claim3_grand_total (data : ContributionData) (sy cy : Nat) (hsy : sy ≠ 0)
    (hex : ∃ week ∈ data.weeks, ∃ day ∈ week, day.date.y = sy) :
    (getGithubActivityData (some data) (some sy) cy).totalContributions =
      data.totalContributions ∧
    (getGithubActivityData (some data) (some sy) cy).selectedYearContributions =
      some (((data.weeks.flatMap fun week =>
        week.filter fun day => day.date.y == sy).map (·.contributionCount)).sum) := by
  rw [getGithub_eq_main data sy cy hsy (year_entries_ne_nil data sy hex)]
  refine ⟨rfl, ?_⟩
  simp [foldl_add_map]

/-- Witness for C3 (amended): grand total 12 and year subtotal 10 are
exposed side by side. -/
theorem claim3_grand_total_witness :
    (getGithubActivityData
        (some ⟨12, [[⟨⟨2023, 5, 1⟩, 4⟩, ⟨⟨2023, 5, 2⟩, 6⟩]]⟩)
        (some 2023) 2025).totalContributions = 12 ∧
    (getGithubActivityData
        (some ⟨12, [[⟨⟨2023, 5, 1⟩, 4⟩, ⟨⟨2023, 5, 2⟩, 6⟩]]⟩)
        (some 2023) 2025).selectedYearContributions = some 10 :=
  claim3_grand_total ⟨12, [[⟨⟨2023, 5, 1⟩, 4⟩, ⟨⟨2023, 5, 2⟩, 6⟩]]⟩ 2023 2025
    (by decide) (by decide)

/-- C5: a missing or empty contribution calendar yields the all-empty
calendar result, and a missing or empty `onchainHistory` yields the
all-zero on-chain results, for every `contractsDeployed` (matching or
not) and every selected year; both transforms are total functions. -/
theorem claim5_degrade_to_empty :
    (∀ (sy : Option Nat) (cy : Nat),
      getGithubActivityData none sy cy =
        { contributionsByDay := [], contributionMonths := [],
          totalContributions := 0, selectedYearContributions := none,
          availableYears := [] }) ∧
    (∀ (sy : Option Nat) (cy tot : Nat),
      getGithubActivityData (some ⟨tot, []⟩) sy cy =
        { contributionsByDay := [], contributionMonths := [],
          totalContributions := 0, selectedYearContributions := none,
          availableYears := [] }) ∧
    (∀ cd : Option ContractsDeployed,
      processOnchainData none cd =
        { totalTransactions := 0, chains := [], chainCount := 0,
          topChain := "", uniqueUsers := 0 }) ∧
    (∀ cd : Option ContractsDeployed,
      processOnchainData (some []) cd =
        { totalTransactions := 0, chains := [], chainCount := 0,
          topChain := "", uniqueUsers := 0 }) ∧
    (∀ (sy : Option Nat) (cy : Nat),
      getOnchainActivityData none sy cy =
        { transactionsByDay := [], activityMonths := [],
          totalTransactions := 0, availableYears := [] }) ∧
    (∀ (sy : Option Nat) (cy : Nat),
      getOnchainActivityData (some []) sy cy =
        { transactionsByDay := [], activityMonths := [],
          totalTransactions := 0, availableYears := [] }) :=
  ⟨fun _ _ => rfl, fun _ _ _ => rfl, fun _ => rfl, fun _ => rfl,
   fun _ _ => rfl, fun _ _ => rfl⟩

/-- C6 counterexample: with an empty `onchainHistory`, the transform
early-returns `uniqueUsers = 0` even though the `contractsDeployed`
records sum to 15, so the grand total is not independent of
`onchainHistory`. -/
theorem claim6_counterexample :
    (processOnchainData (some [])
        (some [("base-mainnet",
          [⟨none, some 10⟩, ⟨none, none⟩, ⟨none, some 5⟩])])).uniqueUsers = 0 ∧
    (10 : Nat) + 0 + 5 = 15 ∧
    (0 : Nat) ≠ 15 := by
  decide

/-- C6 (amended): whenever `onchainHistory` is nonempty, the grand-total
unique-users output equals the sum of `uniqueUsers` over every contract
record of every chain key (null counted as 0), independent of which
chain keys appear in `onchainHistory`. -/
theorem claim6_unique_users_total (h : OnchainHistory) (cd : Option ContractsDeployed)
    (hne : h ≠ []) :
    (processOnchainData (some h) cd).uniqueUsers =
      ((cd.getD []).map fun p => (p.2.map fun c => c.uniqueUsers.getD 0).sum).sum := by
  rw [processOnchain_eq_main h cd hne]
  exact totalUsers_eq cd

/-- Witness for C6 (amended): `[10, null, 5]` sums to 15, for a chain
key absent from `onchainHistory`. -/
theorem claim6_unique_users_total_witness :
    (processOnchainData (some [("eth-mainnet", TxsVal.arr [⟨⟨2024, 1, 1⟩⟩])])
        (some [("base-mainnet",
          [⟨none, some 10⟩, ⟨none, none⟩, ⟨none, some 5⟩])])).uniqueUsers = 15 := by
  rw [claim6_unique_users_total [("eth-mainnet", TxsVal.arr [⟨⟨2024, 1, 1⟩⟩])]
      (some [("base-mainnet", [⟨none, some 10⟩, ⟨none, none⟩, ⟨none, some 5⟩])])
      (by decide)]
  decide

/-- C7: for a calendar with no entries in the (explicitly) selected
year, the transform returns an empty daily series and an empty month
list, while `availableYears` still lists exactly the years present in
the full dataset. -/
theorem claim7_empty_selected_year (data : ContributionData) (sy cy : Nat)
    (hsy : sy ≠ 0)
    (hnone : ∀ week ∈ data.weeks, ∀ day ∈ week, day.date.y ≠ sy) :
    (getGithubActivityData (some data) (some sy) cy).contributionsByDay = [] ∧
    (getGithubActivityData (some data) (some sy) cy).contributionMonths = [] ∧
    ∀ y, y ∈ (getGithubActivityData (some data) (some sy) cy).availableYears ↔
      ∃ week ∈ data.weeks, ∃ day ∈ week, day.date.y = y := by
  have hempty : (data.weeks.flatMap fun week =>
      week.filter fun day => day.date.y == sy) = [] := by
    apply List.eq_nil_iff_forall_not_mem.mpr
    intro d hd
    rw [List.mem_flatMap] at hd
    obtain ⟨w, hw, hdw⟩ := hd
    rw [List.mem_filter] at hdw
    exact hnone w hw d hdw.1 (by simpa using hdw.2)
  have hy : jsOrNat (some sy)
      (match (sortedDedup ((data.weeks.flatMap fun week =>
        week.map (·.date)).map (·.y))).getLast? with
       | some y => y
       | none => cy) = sy := by
    simp [jsOrNat, hsy]
  have heq : getGithubActivityData (some data) (some sy) cy =
      { contributionsByDay := [], contributionMonths := [],
        totalContributions := 0, selectedYearContributions := none,
        availableYears :=
          sortedDedup ((data.weeks.flatMap fun week => week.map (·.date)).map (·.y)) } := by
    have hie : (data.weeks.flatMap fun week =>
        week.filter fun day => day.date.y == sy).isEmpty = true := by
      rw [hempty]
      rfl
    simp only [getGithubActivityData, hy, hie, if_true]
  rw [heq]
  refine ⟨rfl, rfl, fun y => ?_⟩
  rw [mem_sortedDedup, List.mem_map]
  constructor
  · rintro ⟨d, hd, rfl⟩
    rw [List.mem_flatMap] at hd
    obtain ⟨w, hw, hdw⟩ := hd
    rw [List.mem_map] at hdw
    obtain ⟨day, hday, rfl⟩ := hdw
    exact ⟨w, hw, day, hday, rfl⟩
  · rintro ⟨w, hw, day, hday, hdy⟩
    exact ⟨day.date, List.mem_flatMap.mpr ⟨w, hw, List.mem_map_of_mem _ hday⟩, hdy⟩

/-- Witness for C7: entries only in 2023, year 2024 selected. -/
theorem claim7_empty_selected_year_witness :
    (getGithubActivityData (some ⟨10, [[⟨⟨2023, 5, 1⟩, 4⟩]]⟩)
        (some 2024) 2025).contributionsByDay = [] ∧
    (getGithubActivityData (some ⟨10, [[⟨⟨2023, 5, 1⟩, 4⟩]]⟩)
        (some 2024) 2025).contributionMonths = [] ∧
    (2023 ∈ (getGithubActivityData (some ⟨10, [[⟨⟨2023, 5, 1⟩, 4⟩]]⟩)
        (some 2024) 2025).availableYears ↔
      ∃ week ∈ ([[⟨⟨2023, 5, 1⟩, 4⟩]] : List (List ContribDay)),
        ∃ day ∈ week, day.date.y = 2023) :=
  have h := claim7_empty_selected_year ⟨10, [[⟨⟨2023, 5, 1⟩, 4⟩]]⟩ 2024 2025
    (by decide) (by decide)
  ⟨h.1, h.2.1, h.2.2 2023⟩

/-- C1: every produced network entry carries
`score = min((mainnet.tx + testnet.tx) * 2, 100)`; a single chain key
is bucketed to mainnet exactly when it contains "mainnet" and to
network "Ethereum" exactly when it starts with "eth" (else "Base");
and the spec's two-key example merges to one "Ethereum" entry with
mainnet 5, testnet 3, score 16. -/
theorem claim1_network_merge :
    (∀ (oh : Option OnchainHistory) (cd : Option ContractsDeployed),
      ∀ g ∈ (processOnchainData oh cd).chains,
        g.score = min ((g.mainnet.transactions + g.testnet.transactions) * 2) 100) ∧
    (∀ (k : String) (txs : List Tx) (cd : Option ContractsDeployed), txs ≠ [] →
      ((processOnchainData (some [(k, TxsVal.arr txs)]) cd).chains.map fun g =>
          (g.name, g.mainnet.transactions, g.testnet.transactions)) =
        [(if strStartsWith k "eth" then "Ethereum" else "Base",
          if strContains k "mainnet" then txs.length else 0,
          if strContains k "mainnet" then 0 else txs.length)]) ∧
    ((processOnchainData
        (some [("eth-mainnet", TxsVal.arr
            [⟨⟨2024, 1, 1⟩⟩, ⟨⟨2024, 1, 2⟩⟩, ⟨⟨2024, 1, 3⟩⟩, ⟨⟨2024, 1, 4⟩⟩, ⟨⟨2024, 1, 5⟩⟩]),
          ("eth-testnet", TxsVal.arr
            [⟨⟨2024, 2, 1⟩⟩, ⟨⟨2024, 2, 2⟩⟩, ⟨⟨2024, 2, 3⟩⟩])]) none).chains.map
        fun g => (g.name, g.mainnet.transactions, g.testnet.transactions, g.score)) =
      [("Ethereum", 5, 3, 16)] := by
  refine ⟨?_, ?_, by decide⟩
  · intro oh cd g hg
    match oh with
    | none => simp [processOnchainData] at hg
    | some [] => simp [processOnchainData] at hg
    | some (e :: rest) =>
        rw [processOnchain_eq_main (e :: rest) cd (List.cons_ne_nil e rest)] at hg
        simp only at hg
        obtain ⟨p, hp, rfl⟩ := List.mem_map.mp hg
        have hinv := scoreInv_foldl cd (e :: rest) ([], 0)
          (fun q hq => absurd hq (List.not_mem_nil q)) p hp
        simpa [groupToChainData] using hinv
  · intro k txs cd hne
    match txs with
    | [] => exact absurd rfl hne
    | t :: ts =>
        by_cases him : strContains k "mainnet" = true <;>
          by_cases hsw : strStartsWith k "eth" = true <;>
            simp [processOnchainData, procChain, findVal, newGroup,
              groupToChainData, him, hsw]

/-- Witness for C1: the score formula instantiated at a concrete
produced entry, and the single-key bucketing at the non-eth mainnet key
"base-mainnet". -/
theorem claim1_network_merge_witness :
    (groupToChainData (newGroup "Ethereum" true 1 0 0 0 (some ⟨2024, 1, 1⟩))).score =
      min (((groupToChainData (newGroup "Ethereum" true 1 0 0 0
              (some ⟨2024, 1, 1⟩))).mainnet.transactions +
            (groupToChainData (newGroup "Ethereum" true 1 0 0 0
              (some ⟨2024, 1, 1⟩))).testnet.transactions) * 2) 100 ∧
    ((processOnchainData
        (some [("base-mainnet", TxsVal.arr [⟨⟨2023, 6, 1⟩⟩, ⟨⟨2023, 6, 2⟩⟩])])
        none).chains.map fun g =>
          (g.name, g.mainnet.transactions, g.testnet.transactions)) =
      [("Base", 2, 0)] :=
  ⟨claim1_network_merge.1 (some [("eth-mainnet", TxsVal.arr [⟨⟨2024, 1, 1⟩⟩])]) none
      (groupToChainData (newGroup "Ethereum" true 1 0 0 0 (some ⟨2024, 1, 1⟩)))
      (List.mem_singleton.mpr rfl),
   (claim1_network_merge.2.1 "base-mainnet" [⟨⟨2023, 6, 1⟩⟩, ⟨⟨2023, 6, 2⟩⟩] none
      (by decide)).trans (by decide)⟩

/-- C10 counterexample: with an entirely empty `onchainHistory`, a
contracts-only chain key contributes nothing to the per-network
summaries, but its `uniqueUsers` (5) is also dropped from the grand
total, which the transform early-returns as 0. -/
theorem claim10_counterexample :
    (processOnchainData (some []) (some [("base-mainnet", [⟨none, some 5⟩])])).chains = [] ∧
    (processOnchainData (some []) (some [("base-mainnet", [⟨none, some 5⟩])])).uniqueUsers = 0 ∧
    (0 : Nat) ≠ 5 := by
  decide

/-- C10 (amended): whenever `onchainHistory` is nonempty, a chain key
whose `onchainHistory` entry is missing, not an array, or an empty
array contributes nothing to any per-network summary — deleting its
contract records leaves the `chains` output unchanged — while those
records' `uniqueUsers` are still included in the grand total. -/
theorem claim10_skipped_chain_keys (h : OnchainHistory) (cd : ContractsDeployed)
    (k : String) (hne : h ≠ [])
    (hk : ∀ p ∈ h, p.1 = k → p.2 = TxsVal.nonArray ∨ p.2 = TxsVal.arr []) :
    (processOnchainData (some h) (some cd)).chains =
      (processOnchainData (some h) (some (cd.filter fun p => p.1 ≠ k))).chains ∧
    (processOnchainData (some h) (some cd)).uniqueUsers =
      ((cd.map fun p => (p.2.map fun c => c.uniqueUsers.getD 0).sum)).sum := by
  have hcongr : ∀ e ∈ h, ∀ acc,
      procChain (some cd) acc e = procChain (some (cd.filter fun p => p.1 ≠ k)) acc e := by
    intro e he acc
    obtain ⟨kk, v⟩ := e
    match v with
    | .nonArray => rfl
    | .arr [] => rfl
    | .arr (t :: ts) =>
        by_cases hkk : kk = k
        · rcases hk (kk, TxsVal.arr (t :: ts)) he hkk with h1 | h1 <;> simp at h1
        · simp only [procChain]
          rw [findVal_filter_ne kk k cd hkk]
  have hfold : ∀ acc, h.foldl (procChain (some cd)) acc =
      h.foldl (procChain (some (cd.filter fun p => p.1 ≠ k))) acc :=
    foldl_congr_on _ _ h (fun e he acc => hcongr e he acc)
  constructor
  · rw [processOnchain_eq_main h (some cd) hne,
      processOnchain_eq_main h (some (cd.filter fun p => p.1 ≠ k)) hne]
    simp only [hfold]
  · rw [processOnchain_eq_main h (some cd) hne]
    simpa using totalUsers_eq (some cd)

/-- Witness for C10 (amended): the skipped key "base-sepolia" (empty
array entry) leaves `chains` unchanged when its contracts are deleted,
while the grand total still counts its 7 users plus 2 from
"eth-mainnet". -/
theorem claim10_skipped_chain_keys_witness :
    ((processOnchainData
        (some [("eth-mainnet", TxsVal.arr [⟨⟨2024, 1, 1⟩⟩]),
               ("base-sepolia", TxsVal.arr [])])
        (some [("base-sepolia", [⟨none, some 7⟩]),
               ("eth-mainnet", [⟨none, some 2⟩])])).chains =
      (processOnchainData
        (some [("eth-mainnet", TxsVal.arr [⟨⟨2024, 1, 1⟩⟩]),
               ("base-sepolia", TxsVal.arr [])])
        (some (([("base-sepolia", [⟨none, some 7⟩]),
                 ("eth-mainnet", [⟨none, some 2⟩])] :
            ContractsDeployed).filter fun p => p.1 ≠ "base-sepolia"))).chains) ∧
    (processOnchainData
        (some [("eth-mainnet", TxsVal.arr [⟨⟨2024, 1, 1⟩⟩]),
               ("base-sepolia", TxsVal.arr [])])
        (some [("base-sepolia", [⟨none, some 7⟩]),
               ("eth-mainnet", [⟨none, some 2⟩])])).uniqueUsers = 9 := by
  have h := claim10_skipped_chain_keys
    [("eth-mainnet", TxsVal.arr [⟨⟨2024, 1, 1⟩⟩]), ("base-sepolia", TxsVal.arr [])]
    [("base-sepolia", [⟨none, some 7⟩]), ("eth-mainnet", [⟨none, some 2⟩])]
    "base-sepolia" (by decide) (by decide)
  exact ⟨h.1, h.2.trans (by decide)⟩

/-- C4 counterexample: the spec's sample address
"0xAb5801a7D398351b8bE11C439e05C5B3259aeC9" has only 39 hex digits
after "0x", so it is not a well-formed EVM address; the validator
rejects it, where the claim says it is valid. -/
theorem claim4_counterexample :
    isValidAddress "0xAb5801a7D398351b8bE11C439e05C5B3259aeC9" = false := by
  decide

/-- C4 (amended): the validator accepts exactly the empty string, a
syntactically valid EVM address, or a string ending in ".eth" or
".base.eth" with a non-empty label before the first dot; the spec's
remaining vectors hold, and the 39-hex-digit sample is invalid. -/
theorem claim4_validator :
    (∀ s : String, isValidAddress s = true ↔
      (s = "" ∨ isAddress s = true ∨
        ((strEndsWith s ".eth" = true ∨ strEndsWith s ".base.eth" = true) ∧
          0 < ((splitOnDot s.toList).headD []).length))) ∧
    isValidAddress "vitalik.eth" = true ∧
    isValidAddress "foo.base.eth" = true ∧
    isValidAddress ".eth" = false ∧
    isValidAddress "notanaddress" = false ∧
    isValidAddress "" = true ∧
    isValidAddress "0xAb5801a7D398351b8bE11C439e05C5B3259aeC9" = false := by
  refine ⟨fun s => ?_, by decide, by decide, by decide, by decide, by decide, by decide⟩
  unfold isValidAddress
  split_ifs with h1 h2 h3
  · simp only [beq_iff_eq] at h1
    simp [h1]
  · simp [h2]
  · rw [Bool.or_eq_true] at h3
    simp only [decide_eq_true_eq, true_iff, iff_true]
    constructor
    · intro hlen
      exact Or.inr (Or.inr ⟨h3, hlen⟩)
    · rintro (hs | ha | ⟨_, hlen⟩)
      · exact absurd (by simp [hs]) h1
      · exact absurd ha h2
      · exact hlen
  · constructor
    · intro hfalse
      exact absurd hfalse (by simp)
    · rintro (hs | ha | ⟨hor, hlen⟩)
      · exact absurd (by simp [hs]) h1
      · exact absurd ha h2
      · exact absurd (by rw [Bool.or_eq_true]; exact hor) h3

/-- C8: a COMPLETED response after any run of non-terminal polls clears
the timer exactly once (also across any later events) and schedules
navigation to the username-derived URL exactly 2000 ms after it was
observed; a FAILED response clears the timer, schedules no navigation,
and retains the failing snapshot; a transport/parse error changes
nothing, so polling continues. -/
theorem claim8_poller (username : String) (pre suf : List PollEvent)
    (r : StatusResponse) (t : Nat)
    (hpre : ∀ e ∈ pre, isNonTerminal e = true) :
    (r.data.status = ProgressStatus.completed →
      (pollRun username (pre ++ PollEvent.response r t :: suf)).clearCount = 1 ∧
      (pollRun username (pre ++ PollEvent.response r t :: suf)).nav =
        some (t + 2000, "/" ++ username) ∧
      (pollRun username (pre ++ PollEvent.response r t :: suf)).timerLive = false) ∧
    (r.data.status = ProgressStatus.failed →
      (pollRun username (pre ++ PollEvent.response r t :: suf)).clearCount = 1 ∧
      (pollRun username (pre ++ PollEvent.response r t :: suf)).timerLive = false ∧
      (pollRun username (pre ++ PollEvent.response r t :: suf)).nav = none ∧
      (pollRun username (pre ++ PollEvent.response r t :: suf)).statusData = some r) ∧
    (∀ (s : PollView) (t2 : Nat), pollStep username s (PollEvent.transportError t2) = s) := by
  have hm := pollFoldl_nonTerminal username pre pollInit hpre rfl
  have h0 : (pre.foldl (pollStep username) pollInit).clearCount = 0 := hm.2.1
  have hnav0 : (pre.foldl (pollStep username) pollInit).nav = none := hm.2.2
  refine ⟨fun hc => ?_, fun hf => ?_, fun s t2 => ?_⟩
  · rw [pollRun, List.foldl_append, List.foldl_cons]
    have hstep : pollStep username (pre.foldl (pollStep username) pollInit)
        (PollEvent.response r t) =
        { timerLive := false,
          clearCount := (pre.foldl (pollStep username) pollInit).clearCount + 1,
          nav := some (t + 2000, "/" ++ username),
          statusData := some r } := by
      simp [pollStep, hm.1, hc]
    rw [hstep, pollFoldl_dead username suf _ rfl]
    refine ⟨?_, rfl, rfl⟩
    simp [h0]
  · rw [pollRun, List.foldl_append, List.foldl_cons]
    have hstep : pollStep username (pre.foldl (pollStep username) pollInit)
        (PollEvent.response r t) =
        { timerLive := false,
          clearCount := (pre.foldl (pollStep username) pollInit).clearCount + 1,
          nav := (pre.foldl (pollStep username) pollInit).nav,
          statusData := some r } := by
      simp [pollStep, hm.1, hf]
    rw [hstep, pollFoldl_dead username suf _ rfl]
    refine ⟨?_, rfl, ?_, rfl⟩
    · simp [h0]
    · exact hnav0
  · simp [pollStep]

/-- Witness for C8: the spec's PROCESSING, PROCESSING, COMPLETED
sequence at 0, 3000, 6000 ms clears once and navigates at 8000 ms. -/
theorem claim8_poller_witness :
    (pollRun "alice"
        [PollEvent.response ⟨true, ⟨ProgressStatus.processing, none⟩⟩ 0,
         PollEvent.response ⟨true, ⟨ProgressStatus.processing, none⟩⟩ 3000,
         PollEvent.response ⟨true, ⟨ProgressStatus.completed, none⟩⟩ 6000]).clearCount = 1 ∧
    (pollRun "alice"
        [PollEvent.response ⟨true, ⟨ProgressStatus.processing, none⟩⟩ 0,
         PollEvent.response ⟨true, ⟨ProgressStatus.processing, none⟩⟩ 3000,
         PollEvent.response ⟨true, ⟨ProgressStatus.completed, none⟩⟩ 6000]).nav =
      some (6000 + 2000, "/" ++ "alice") ∧
    (pollRun "alice"
        [PollEvent.response ⟨true, ⟨ProgressStatus.processing, none⟩⟩ 0,
         PollEvent.response ⟨true, ⟨ProgressStatus.processing, none⟩⟩ 3000,
         PollEvent.response ⟨true, ⟨ProgressStatus.completed, none⟩⟩ 6000]).timerLive = false :=
  (claim8_poller "alice"
      [PollEvent.response ⟨true, ⟨ProgressStatus.processing, none⟩⟩ 0,
       PollEvent.response ⟨true, ⟨ProgressStatus.processing, none⟩⟩ 3000]
      [] ⟨true, ⟨ProgressStatus.completed, none⟩⟩ 6000 (by decide)).1 rfl

/-- C9 counterexample: a body whose `header` field is present but the
empty string (so not missing), with a decodable payload and a
signature, is rejected with 400 by the JavaScript falsiness check,
where the claim requires 200. -/
theorem claim9_counterexample :
    (handleWebhookPost (fun _ => some ⟨"frame_added", none⟩)
        (some ⟨some "", some "cGF5bG9hZA==", some "sig"⟩)).status = 400 ∧
    (some "" : Option String) ≠ none ∧
    (400 : Nat) ≠ 200 := by
  decide

/-- C9 (amended): 400 with no processing when any of the three body
fields is missing or empty; 500 when the body or payload fails to
decode; otherwise 200 with success, for every decoded event (unknown
names included) and for `frame_added` without `notificationDetails`,
which only logs the bare line. -/
theorem claim9_webhook (decode : String → Option WebhookPayload) :
    (handleWebhookPost decode none =
      { status := 500, success := false, processed := none, logs := [] }) ∧
    (∀ b : WebhookBody,
      (jsFalsyStr b.header || jsFalsyStr b.payload || jsFalsyStr b.signature) = true →
      handleWebhookPost decode (some b) =
        { status := 400, success := false, processed := none, logs := [] }) ∧
    (∀ (b : WebhookBody) (pstr : String), b.payload = some pstr →
      (jsFalsyStr b.header || jsFalsyStr b.payload || jsFalsyStr b.signature) = false →
      decode pstr = none →
      handleWebhookPost decode (some b) =
        { status := 500, success := false, processed := none, logs := [] }) ∧
    (∀ (b : WebhookBody) (pstr : String) (p : WebhookPayload), b.payload = some pstr →
      (jsFalsyStr b.header || jsFalsyStr b.payload || jsFalsyStr b.signature) = false →
      decode pstr = some p →
      handleWebhookPost decode (some b) =
        { status := 200, success := true, processed := some p, logs := eventLogs p }) ∧
    (∀ p : WebhookPayload, p.event = "frame_added" → p.notificationDetails = none →
      eventLogs p = ["User added frame and enabled notifications"]) := by
  refine ⟨rfl, fun b hfal => ?_, fun b pstr hp hfal hdec => ?_,
    fun b pstr p hp hfal hdec => ?_, fun p hev hnd => ?_⟩
  · simp [handleWebhookPost, hfal]
  · rw [hp] at hfal
    simp only [Bool.or_eq_false_iff] at hfal
    simp [handleWebhookPost, hp, hdec, hfal.1.1, hfal.1.2, hfal.2]
  · rw [hp] at hfal
    simp only [Bool.or_eq_false_iff] at hfal
    simp [handleWebhookPost, hp, hdec, hfal.1.1, hfal.1.2, hfal.2]
  · simp [eventLogs, hev, hnd]

/-- Witness for C9 (amended), with a concrete decode: a missing
signature gives 400 with no processing; a well-formed body decoding to
`frame_added` without details gives 200 and the bare log line. -/
theorem claim9_webhook_witness :
    (handleWebhookPost (fun _ => some ⟨"frame_added", none⟩)
        (some ⟨some "h", some "cGF5bG9hZA==", none⟩) =
      { status := 400, success := false, processed := none, logs := [] }) ∧
    (handleWebhookPost (fun _ => some ⟨"frame_added", none⟩)
        (some ⟨some "h", some "cGF5bG9hZA==", some "sig"⟩) =
      { status := 200, success := true, processed := some ⟨"frame_added", none⟩,
        logs := eventLogs ⟨"frame_added", none⟩ }) ∧
    eventLogs ⟨"frame_added", none⟩ = ["User added frame and enabled notifications"] :=
  ⟨(claim9_webhook (fun _ => some ⟨"frame_added", none⟩)).2.1
      ⟨some "h", some "cGF5bG9hZA==", none⟩ (by decide),
   (claim9_webhook (fun _ => some ⟨"frame_added", none⟩)).2.2.2.1
      ⟨some "h", some "cGF5bG9hZA==", some "sig"⟩ "cGF5bG9hZA==" ⟨"frame_added", none⟩
      rfl (by decide) rfl,
   (claim9_webhook (fun _ => some ⟨"frame_added", none⟩)).2.2.2.2
      ⟨"frame_added", none⟩ rfl rfl⟩

end Klyro
